import Mathlib

/-!
Verification of the gnosis-py Ethereum client library (src/gnosis/eth/ethereum_client.py
and src/gnosis/safe/signatures.py) against its specification.

Byte strings are modelled as `List Nat` with every element below 256 where it matters;
Python ints are `Nat` (the values handled here are non-negative throughout the source).
Fallible code returns `Except`/`Option`.
-/

/-- Big-endian interpretation of a byte string, as Python
`int.from_bytes(bs, 'big')`. -/
def bytesToNat (bs : List Nat) : Nat :=
  bs.foldl (fun acc b => acc * 256 + b) 0

/-- Big-endian fixed-width encoding of a natural number, as Python
`n.to_bytes(w, 'big')` (the low `w` bytes; Python raises OverflowError for
`n >= 256 ^ w`, the theorems carry that bound as a hypothesis). -/
def natToBytes : Nat → Nat → List Nat
  | 0, _ => []
  | w + 1, n => natToBytes w (n / 256) ++ [n % 256]

theorem bytesToNat_snoc (xs : List Nat) (b : Nat) :
    bytesToNat (xs ++ [b]) = bytesToNat xs * 256 + b := by
  simp [bytesToNat, List.foldl_append]

theorem natToBytes_length (w n : Nat) : (natToBytes w n).length = w := by
  induction w generalizing n with
  | zero => rfl
  | succ w ih => simp [natToBytes, ih]

theorem bytesToNat_natToBytes (w n : Nat) (h : n < 256 ^ w) :
    bytesToNat (natToBytes w n) = n := by
  induction w generalizing n with
  | zero =>
    have : n = 0 := by simpa using Nat.lt_one_iff.mp (by simpa using h)
    simp [this, natToBytes, bytesToNat]
  | succ w ih =>
    have hdiv : n / 256 < 256 ^ w := by
      have h256 : (0 : Nat) < 256 := by norm_num
      rw [Nat.div_lt_iff_lt_mul h256]
      calc n < 256 ^ (w + 1) := h
        _ = 256 ^ w * 256 := by rw [pow_succ]
    have hmod := Nat.div_add_mod n 256
    rw [natToBytes, bytesToNat_snoc, ih (n / 256) hdiv]
    omega

/-! ### Signature codec (src/gnosis/safe/signatures.py)

A signature on the wire is 65 bytes: r (32 bytes big-endian), s (32 bytes
big-endian), v (1 byte). -/

/-- Failure kind of the signature splitter: the out-of-range access raised
when fewer than `65 * (pos + 1)` bytes are available (the spec's
`MalformedSignature` error kind; the source's only failure mode here is the
out-of-range byte lookup for `v`). -/
inductive SigError where
  | malformedSignature
deriving DecidableEq, Repr

/-- Embeds `signature_split` (signatures.py lines 7-19): `v` is the byte at
index `64 + 65 * pos` (an out-of-range lookup fails, as Python indexing does),
`r` and `s` are the big-endian values of the slices `[65p : 65p + 32]` and
`[65p + 32 : 65p + 64]` (Python slices never fail; `v` is read first, so the
failure is decided by the `v` lookup alone). -/
def signature_split (signatures : List Nat) (pos : Nat) : Except SigError (Nat × Nat × Nat) :=
  let signature_pos := 65 * pos
  match signatures[64 + signature_pos]? with
  | none => .error .malformedSignature
  | some v =>
    let r := bytesToNat ((signatures.drop signature_pos).take 32)
    let s := bytesToNat ((signatures.drop (32 + signature_pos)).take 32)
    .ok (v, r, s)

/-- Embeds `signature_to_bytes` (signatures.py lines 22-34):
`r.to_bytes(32,'big') + s.to_bytes(32,'big') + v.to_bytes(1,'big')`. -/
def signature_to_bytes (v r s : Nat) : List Nat :=
  natToBytes 32 r ++ natToBytes 32 s ++ natToBytes 1 v

/-- Embeds `signatures_to_bytes` (signatures.py lines 37-43): concatenation of
the 65-byte encodings in input order. -/
def signatures_to_bytes (signatures : List (Nat × Nat × Nat)) : List Nat :=
  (signatures.map fun vrs => signature_to_bytes vrs.1 vrs.2.1 vrs.2.2).flatten

/-- Claim C4: with fewer than `65 * (pos + 1)` bytes available,
`signature_split` fails with the malformed-signature error (and that is its
only failure); with at least that many bytes it returns the `pos`-th 65-byte
chunk decoded as (recoveryId at chunk byte 64, r big-endian from the chunk's
first 32 bytes, s big-endian from the next 32). -/
theorem signature_split_spec (bs : List Nat) (pos : Nat) :
    (bs.length < 65 * (pos + 1) →
      signature_split bs pos = .error .malformedSignature) ∧
    (65 * (pos + 1) ≤ bs.length →
      signature_split bs pos =
        .ok (bs.getD (64 + 65 * pos) 0,
             bytesToNat ((bs.drop (65 * pos)).take 32),
             bytesToNat ((bs.drop (32 + 65 * pos)).take 32))) := by
  constructor
  · intro h
    have hnone : bs[64 + 65 * pos]? = none := List.getElem?_eq_none (by omega)
    simp [signature_split, hnone]
  · intro h
    have hlt : 64 + 65 * pos < bs.length := by omega
    have hsome : bs[64 + 65 * pos]? = some bs[64 + 65 * pos] :=
      List.getElem?_eq_getElem hlt
    simp [signature_split, hsome]

/-- Claim C4 witness: the empty byte string fails, and a concrete 65-byte
string splits into its decoded chunk. -/
theorem signature_split_spec_witness :
    signature_split ([] : List Nat) 0 = .error .malformedSignature ∧
    signature_split (List.replicate 65 7) 0 =
      .ok (7, bytesToNat (List.replicate 32 7), bytesToNat (List.replicate 32 7)) := by
  constructor
  · exact (signature_split_spec [] 0).1 (by decide)
  · have h := (signature_split_spec (List.replicate 65 7) 0).2 (by decide)
    rw [h]
    rfl

theorem signature_to_bytes_length (v r s : Nat) :
    (signature_to_bytes v r s).length = 65 := by
  simp [signature_to_bytes, natToBytes_length]

/-- Splitting at position 0 of a well-formed 65-byte encoding followed by
anything recovers the encoded triple. -/
theorem signature_split_encode_head (v r s : Nat) (rest : List Nat)
    (hv : v < 256) (hr : r < 2 ^ 256) (hs : s < 2 ^ 256) :
    signature_split (signature_to_bytes v r s ++ rest) 0 = .ok (v, r, s) := by
  have hv1 : natToBytes 1 v = [v] := by
    simp [natToBytes, Nat.mod_eq_of_lt hv]
  have hlenr : (natToBytes 32 r).length = 32 := natToBytes_length 32 r
  have hlens : (natToBytes 32 s).length = 32 := natToBytes_length 32 s
  have hshape : signature_to_bytes v r s ++ rest =
      natToBytes 32 r ++ (natToBytes 32 s ++ ([v] ++ rest)) := by
    simp [signature_to_bytes, hv1]
  have hvbyte : (natToBytes 32 r ++ (natToBytes 32 s ++ ([v] ++ rest)))[(64 : Nat)]? =
      some v := by
    rw [List.getElem?_append_right (by omega), hlenr]
    rw [List.getElem?_append_right (by omega), hlens]
    simp
  have hrslice : ((natToBytes 32 r ++ (natToBytes 32 s ++ ([v] ++ rest))).drop 0).take 32 =
      natToBytes 32 r := by
    rw [List.drop_zero, List.take_append_of_le_length (by omega),
      List.take_of_length_le (by omega)]
  have hsslice : ((natToBytes 32 r ++ (natToBytes 32 s ++ ([v] ++ rest))).drop 32).take 32 =
      natToBytes 32 s := by
    rw [List.drop_append_of_le_length (by omega), List.drop_of_length_le (by omega)]
    simp only [List.nil_append]
    rw [List.take_append_of_le_length (by omega), List.take_of_length_le (by omega)]
  rw [hshape]
  simp only [signature_split, Nat.mul_zero, Nat.add_zero]
  rw [hvbyte]
  rw [hrslice, hsslice, bytesToNat_natToBytes 32 r (by exact_mod_cast hr),
    bytesToNat_natToBytes 32 s (by exact_mod_cast hs)]

/-- Splitting a byte string that starts with a 65-byte block at position
`pos + 1` is splitting the remainder at position `pos`. -/
theorem signature_split_shift (xs ys : List Nat) (pos : Nat) (h : xs.length = 65) :
    signature_split (xs ++ ys) (pos + 1) = signature_split ys pos := by
  have hv : (xs ++ ys)[64 + 65 * (pos + 1)]? = ys[64 + 65 * pos]? := by
    rw [List.getElem?_append_right (by omega)]
    congr 1
    omega
  have hdrop1 : (xs ++ ys).drop (65 * (pos + 1)) = ys.drop (65 * pos) := by
    have : 65 * (pos + 1) = xs.length + 65 * pos := by omega
    rw [this, List.drop_append]
  have hdrop2 : (xs ++ ys).drop (32 + 65 * (pos + 1)) = ys.drop (32 + 65 * pos) := by
    have : 32 + 65 * (pos + 1) = xs.length + (32 + 65 * pos) := by omega
    rw [this, List.drop_append]
  simp only [signature_split, hv, hdrop1, hdrop2]

/-- Boundedness of one signature triple (v, r, s): the recovery id fits a
byte and r, s fit 32 bytes, as claim C9 requires. -/
def SigBounded (t : Nat × Nat × Nat) : Prop :=
  t.1 < 256 ∧ t.2.1 < 2 ^ 256 ∧ t.2.2 < 2 ^ 256

/-- Claim C9: encode/split round-trip for any bounded (recoveryId, r, s), and
for a list of three bounded triples the joined encoding is exactly 195 bytes
with `signature_split` at position i recovering the i-th triple. -/
theorem signature_codec_roundtrip (t0 t1 t2 : Nat × Nat × Nat)
    (h0 : SigBounded t0) (h1 : SigBounded t1) (h2 : SigBounded t2) :
    signature_split (signature_to_bytes t0.1 t0.2.1 t0.2.2) 0 = .ok t0 ∧
    (signatures_to_bytes [t0, t1, t2]).length = 195 ∧
    signature_split (signatures_to_bytes [t0, t1, t2]) 0 = .ok t0 ∧
    signature_split (signatures_to_bytes [t0, t1, t2]) 1 = .ok t1 ∧
    signature_split (signatures_to_bytes [t0, t1, t2]) 2 = .ok t2 := by
  obtain ⟨v0, r0, s0⟩ := t0
  obtain ⟨v1, r1, s1⟩ := t1
  obtain ⟨v2, r2, s2⟩ := t2
  obtain ⟨hv0, hr0, hs0⟩ := h0
  obtain ⟨hv1, hr1, hs1⟩ := h1
  obtain ⟨hv2, hr2, hs2⟩ := h2
  have hjoin : signatures_to_bytes [(v0, r0, s0), (v1, r1, s1), (v2, r2, s2)] =
      signature_to_bytes v0 r0 s0 ++
        (signature_to_bytes v1 r1 s1 ++ (signature_to_bytes v2 r2 s2 ++ [])) := by
    simp [signatures_to_bytes]
  refine ⟨?_, ?_, ?_, ?_, ?_⟩
  · have := signature_split_encode_head v0 r0 s0 [] hv0 hr0 hs0
    simpa using this
  · rw [hjoin]
    simp [signature_to_bytes_length]
  · rw [hjoin]
    exact signature_split_encode_head v0 r0 s0 _ hv0 hr0 hs0
  · rw [hjoin, signature_split_shift _ _ 0 (signature_to_bytes_length v0 r0 s0)]
    exact signature_split_encode_head v1 r1 s1 _ hv1 hr1 hs1
  · rw [hjoin, signature_split_shift _ _ 1 (signature_to_bytes_length v0 r0 s0),
      signature_split_shift _ _ 0 (signature_to_bytes_length v1 r1 s1)]
    exact signature_split_encode_head v2 r2 s2 [] hv2 hr2 hs2

/-- Claim C9 witness: the round-trip and join/split facts at three concrete
bounded triples. -/
theorem signature_codec_roundtrip_witness :
    signature_split (signature_to_bytes 27 1 2) 0 = .ok (27, 1, 2) ∧
    (signatures_to_bytes [(27, 1, 2), (28, 3, 4), (0, 5, 6)]).length = 195 ∧
    signature_split (signatures_to_bytes [(27, 1, 2), (28, 3, 4), (0, 5, 6)]) 1 =
      .ok (28, 3, 4) := by
  have h := signature_codec_roundtrip (27, 1, 2) (28, 3, 4) (0, 5, 6)
    (by refine ⟨?_, ?_, ?_⟩ <;> norm_num)
    (by refine ⟨?_, ?_, ?_⟩ <;> norm_num)
    (by refine ⟨?_, ?_, ?_⟩ <;> norm_num)
  exact ⟨h.1, h.2.1, h.2.2.2.1⟩

/-! ### Calldata gas estimation (ethereum_client.py lines 724-735) -/

/-- Embeds `EthereumClient.estimate_data_gas`: walks the bytes, adding the
zero-byte gas cost for each zero byte and the nonzero-byte cost otherwise.
The two costs are the constants `GAS_CALL_DATA_ZERO_BYTE` and
`GAS_CALL_DATA_BYTE` imported from the constants module; they are passed as
parameters here since the claim is symbolic in them. -/
def estimate_data_gas (gasZeroByte gasByte : Nat) (data : List Nat) : Nat :=
  data.foldl (fun gas byte => if byte = 0 then gas + gasZeroByte else gas + gasByte) 0

theorem estimate_data_gas_foldl_shift (gasZeroByte gasByte : Nat) (data : List Nat)
    (init : Nat) :
    data.foldl (fun gas byte => if byte = 0 then gas + gasZeroByte else gas + gasByte) init =
      init + estimate_data_gas gasZeroByte gasByte data := by
  induction data generalizing init with
  | nil => simp [estimate_data_gas]
  | cons b rest ih =>
    simp only [estimate_data_gas, List.foldl_cons]
    rw [ih, ih]
    by_cases hb : b = 0 <;> simp [hb] <;> omega

/-- Auxiliary step fact: one list element adds its own cost. -/
theorem estimate_data_gas_cons (gasZeroByte gasByte b : Nat) (rest : List Nat) :
    estimate_data_gas gasZeroByte gasByte (b :: rest) =
      (if b = 0 then gasZeroByte else gasByte) + estimate_data_gas gasZeroByte gasByte rest := by
  simp only [estimate_data_gas, List.foldl_cons]
  rw [estimate_data_gas_foldl_shift]
  by_cases hb : b = 0 <;> simp [hb, estimate_data_gas]

/-- Claim C10: `estimate_data_gas` returns exactly
(zero bytes) * GAS_CALL_DATA_ZERO_BYTE + (nonzero bytes) * GAS_CALL_DATA_BYTE,
is total (it is a function), and returns 0 on empty input. -/
theorem estimate_data_gas_spec (gasZeroByte gasByte : Nat) (data : List Nat) :
    estimate_data_gas gasZeroByte gasByte data =
      (data.countP (· = 0)) * gasZeroByte + (data.countP (· ≠ 0)) * gasByte ∧
    estimate_data_gas gasZeroByte gasByte [] = 0 := by
  refine ⟨?_, rfl⟩
  induction data with
  | nil => simp [estimate_data_gas]
  | cons b rest ih =>
    rw [estimate_data_gas_cons, ih]
    by_cases hb : b = 0
    · simp [hb, List.countP_cons]
      ring
    · simp [List.countP_cons, hb]
      ring

/-! ### Error classifier (ethereum_client.py lines 98-124)

`tx_with_exception_handling` wraps the write path: it lowercases the failure
message and walks an ordered mapping of substrings, raising the structured
error of the first lowercased substring contained in the message, and
re-raising the original failure when none is. -/

/-- The structured write-path error kinds (ethereum_client.py lines 54-87). -/
inductive TxError where
  | TransactionAlreadyImported
  | ReplacementTransactionUnderpriced
  | FromAddressNotFound
  | InvalidNonce
  | NonceTooLow
  | InsufficientFunds
  | SenderAccountNotFoundInNode
  | UnknownAccount
  | GasLimitExceeded
deriving DecidableEq, Repr

/-- Lowercasing of a message, as Python `str.lower()` on the ASCII strings the
classifier handles. -/
def lowerChars (s : String) : List Char :=
  s.data.map Char.toLower

/-- Substring containment on character lists, as Python `needle in hay`. -/
def substrOccurs (needle hay : List Char) : Bool :=
  (List.range (hay.length + 1)).any fun i => needle.isPrefixOf (hay.drop i)

/-- The apostrophe character, used by one classifier substring. -/
def apostrophe : String :=
  String.singleton (Char.ofNat 39)

/-- Embeds the `error_with_exception` ordered mapping (ethereum_client.py
lines 99-112), in declaration order. -/
def error_with_exception : List (String × TxError) :=
  [("Transaction with the same hash was already imported", .TransactionAlreadyImported),
   ("replacement transaction underpriced", .ReplacementTransactionUnderpriced),
   ("There is another transaction with same nonce in the queue", .ReplacementTransactionUnderpriced),
   ("from not found", .FromAddressNotFound),
   ("correct nonce", .InvalidNonce),
   ("nonce too low", .NonceTooLow),
   ("insufficient funds", .InsufficientFunds),
   ("doesn" ++ apostrophe ++ "t have enough funds", .InsufficientFunds),
   ("sender account not recognized", .SenderAccountNotFoundInNode),
   ("unknown account", .UnknownAccount),
   ("Transaction cost exceeds current gas limit", .GasLimitExceeded),
   ("exceeds block gas limit", .GasLimitExceeded)]

/-- The classifier's scan over the ordered mapping: the first entry whose
lowercased substring occurs in the lowercased message wins. -/
def classifyLoop (msgLower : List Char) : List (String × TxError) → Option TxError
  | [] => none
  | (reason, exc) :: rest =>
    if substrOccurs (lowerChars reason) msgLower then some exc
    else classifyLoop msgLower rest

/-- Embeds the except-clause of `tx_with_exception_handling` (ethereum_client.py
lines 115-123): `none` means the original failure propagates unclassified. -/
def tx_with_exception_handling (msg : String) : Option TxError :=
  classifyLoop (lowerChars msg) error_with_exception

/-- Claim C2 counterexample: the message "already imported" contains the
substring the claim lists for AlreadyImported, yet the classifier leaves it
unclassified — the substring actually matched is the full sentence
"Transaction with the same hash was already imported". -/
theorem tx_classifier_counterexample :
    tx_with_exception_handling "already imported" = none := by
  rfl

theorem classifyLoop_characterization (msgLower : List Char)
    (l : List (String × TxError)) (k : TxError) :
    (classifyLoop msgLower l = some k ↔
      ∃ i : Nat, ∃ p : String × TxError, l[i]? = some p ∧ p.2 = k ∧
        substrOccurs (lowerChars p.1) msgLower = true ∧
        ∀ j : Nat, j < i → ∀ q : String × TxError, l[j]? = some q →
          substrOccurs (lowerChars q.1) msgLower = false) ∧
    (classifyLoop msgLower l = none ↔
      ∀ p ∈ l, substrOccurs (lowerChars p.1) msgLower = false) := by
  induction l with
  | nil =>
    constructor
    · simp [classifyLoop]
    · simp [classifyLoop]
  | cons hd tl ih =>
    by_cases hhd : substrOccurs (lowerChars hd.1) msgLower = true
    · constructor
      · constructor
        · intro h
          refine ⟨0, hd, by simp, ?_, hhd, fun j hj _ _ => absurd hj (by omega)⟩
          simpa [classifyLoop, hhd] using h
        · rintro ⟨i, p, hp, hpk, _, hearlier⟩
          match i with
          | 0 =>
            simp only [List.getElem?_cons_zero, Option.some.injEq] at hp
            subst hp
            simp [classifyLoop, hhd, hpk]
          | j + 1 =>
            have := hearlier 0 (by omega) hd (by simp)
            rw [this] at hhd
            exact absurd hhd (by simp)
      · constructor
        · intro h
          simp [classifyLoop, hhd] at h
        · intro h
          have := h hd (by simp)
          rw [this] at hhd
          exact absurd hhd (by simp)
    · have hhd' : substrOccurs (lowerChars hd.1) msgLower = false := by
        simpa using hhd
      have hstep : classifyLoop msgLower (hd :: tl) = classifyLoop msgLower tl := by
        simp [classifyLoop, hhd']
      constructor
      · rw [hstep, (ih).1]
        constructor
        · rintro ⟨i, p, hp, hpk, hocc, hearlier⟩
          refine ⟨i + 1, p, by simpa using hp, hpk, hocc, ?_⟩
          intro j hj q hq
          match j with
          | 0 =>
            simp only [List.getElem?_cons_zero, Option.some.injEq] at hq
            exact hq ▸ hhd'
          | j' + 1 =>
            exact hearlier j' (by omega) q (by simpa using hq)
        · rintro ⟨i, p, hp, hpk, hocc, hearlier⟩
          match i with
          | 0 =>
            simp only [List.getElem?_cons_zero, Option.some.injEq] at hp
            subst hp
            rw [hocc] at hhd'
            exact absurd hhd' (by simp)
          | i' + 1 =>
            refine ⟨i', p, by simpa using hp, hpk, hocc, ?_⟩
            intro j hj q hq
            exact hearlier (j + 1) (by omega) q (by simpa using hq)
      · rw [hstep, (ih).2]
        constructor
        · intro h
          intro p hp
          rcases List.mem_cons.mp hp with h1 | h2
          · exact h1 ▸ hhd'
          · exact h p h2
        · intro h p hp
          exact h p (List.mem_cons_of_mem hd hp)

/-- Claim C2 as amended: the classifier returns kind `k` exactly when some
entry of the ordered `error_with_exception` mapping carries `k`, its
(lowercased) substring — the full declared sentence, in particular
"transaction with the same hash was already imported" for AlreadyImported —
occurs in the lowercased message, and no earlier entry's substring occurs
(first match wins, ties resolved by declaration order); it returns none, and
the original failure propagates unclassified, exactly when no declared
substring occurs. -/
theorem tx_classifier_spec (msg : String) (k : TxError) :
    (tx_with_exception_handling msg = some k ↔
      ∃ i : Nat, ∃ p : String × TxError, error_with_exception[i]? = some p ∧ p.2 = k ∧
        substrOccurs (lowerChars p.1) (lowerChars msg) = true ∧
        ∀ j : Nat, j < i → ∀ q : String × TxError, error_with_exception[j]? = some q →
          substrOccurs (lowerChars q.1) (lowerChars msg) = false) ∧
    (tx_with_exception_handling msg = none ↔
      ∀ p ∈ error_with_exception,
        substrOccurs (lowerChars p.1) (lowerChars msg) = false) :=
  classifyLoop_characterization (lowerChars msg) error_with_exception k

/-! ### Transaction submission retry loop (ethereum_client.py lines 829-884)

The loop body signs (private key) or marks the sender (public key) and
submits; the submission's classified outcome is what the environment answers.
`number_errors` starts at 5 and the loop runs `while number_errors >= 0`,
exiting only by returning a hash or re-raising an error. The environment is a
stream of per-attempt outcomes and a stream of `get_nonce_for_account`
answers. -/

/-- Classified outcome of one submission attempt, as seen by the loop body. -/
inductive AttemptOutcome where
  | accepted (txHash : Nat)
  | alreadyImported
  | replacementUnderpriced
  | invalidNonce
  | otherFailure
deriving DecidableEq, Repr

/-- Loop state: the transaction nonce, the remaining error budget
`number_errors`, and how many submissions and nonce fetches happened. -/
structure SubmitState where
  nonce : Nat
  number_errors : Nat
  attempt : Nat
  fetches : Nat
deriving DecidableEq, Repr

/-- What one iteration of the `while` loop does. -/
inductive SubmitResult where
  | returned (txHash : Nat)
  | raised (e : AttemptOutcome)
  | running (s : SubmitState)
deriving DecidableEq, Repr

/-- Embeds one iteration of the retry loop (ethereum_client.py lines 854-884):
on success return the hash; on TransactionAlreadyImported with a private key
return the locally signed hash, without one re-raise; on
ReplacementTransactionUnderpriced re-raise unless `retry` and the budget is
nonzero, else bump the nonce to `max(nonce + 1, fetched)` WITHOUT decrementing
`number_errors`; on InvalidNonce re-raise unless `retry` and the budget is
nonzero, else refetch the nonce and decrement `number_errors`; any other
failure propagates uncaught. -/
def submitStep (retry usePrivateKey : Bool) (localHash : Nat → Nat)
    (env : Nat → AttemptOutcome) (nonceEnv : Nat → Nat) (s : SubmitState) : SubmitResult :=
  match env s.attempt with
  | .accepted h => .returned h
  | .alreadyImported =>
    if usePrivateKey then .returned (localHash s.nonce) else .raised .alreadyImported
  | .replacementUnderpriced =>
    if retry = false ∨ s.number_errors = 0 then .raised .replacementUnderpriced
    else .running ⟨max (s.nonce + 1) (nonceEnv s.fetches), s.number_errors,
                   s.attempt + 1, s.fetches + 1⟩
  | .invalidNonce =>
    if retry = false ∨ s.number_errors = 0 then .raised .invalidNonce
    else .running ⟨nonceEnv s.fetches, s.number_errors - 1, s.attempt + 1, s.fetches + 1⟩
  | .otherFailure => .raised .otherFailure

/-- Runs the retry loop for `fuel` iterations; `.running` means the loop has
neither returned nor raised after that many iterations (the `while` condition
`number_errors >= 0` always holds, the loop can only exit by return or
raise). -/
def send_unsigned_transaction_loop (retry usePrivateKey : Bool) (localHash : Nat → Nat)
    (env : Nat → AttemptOutcome) (nonceEnv : Nat → Nat) : Nat → SubmitState → SubmitResult
  | 0, s => .running s
  | fuel + 1, s =>
    match submitStep retry usePrivateKey localHash env nonceEnv s with
    | .running s2 => send_unsigned_transaction_loop retry usePrivateKey localHash env nonceEnv fuel s2
    | r => r

theorem submit_loop_underpriced_invariant (localHash : Nat → Nat) (nonceEnv : Nat → Nat)
    (fuel : Nat) (s : SubmitState) (h : s.number_errors = 5) :
    ∃ s2 : SubmitState,
      send_unsigned_transaction_loop true true localHash
        (fun _ => .replacementUnderpriced) nonceEnv fuel s = .running s2 ∧
      s2.number_errors = 5 := by
  induction fuel generalizing s with
  | zero => exact ⟨s, rfl, h⟩
  | succ fuel ih =>
    have hstep : submitStep true true localHash (fun _ => .replacementUnderpriced) nonceEnv s =
        .running ⟨max (s.nonce + 1) (nonceEnv s.fetches), s.number_errors,
                  s.attempt + 1, s.fetches + 1⟩ := by
      simp [submitStep, h]
    rw [send_unsigned_transaction_loop, hstep]
    exact ih _ h

/-- Claim C1, evaluated at the failing input: with `retry=true` and a node
that answers every submission with ReplacementTransactionUnderpriced, the
retry loop never returns and never raises — after any number of iterations it
is still running with the full budget of 5, because that branch never
decrements `number_errors` (ethereum_client.py lines 870-877), contradicting
the claimed bound of at most 5 retries. -/
theorem submit_loop_no_retry_bound (localHash : Nat → Nat) (nonceEnv : Nat → Nat)
    (fuel nonce0 : Nat) :
    ∃ s2 : SubmitState,
      send_unsigned_transaction_loop true true localHash
        (fun _ => .replacementUnderpriced) nonceEnv fuel ⟨nonce0, 5, 0, 0⟩ = .running s2 ∧
      s2.number_errors = 5 :=
  submit_loop_underpriced_invariant localHash nonceEnv fuel ⟨nonce0, 5, 0, 0⟩ rfl

/-! ### Parity call-trace decoding (ethereum_client.py lines 405-597)

`_decode_traces` raises `ParityTraceDecodeException` at the first list entry
that is not a dictionary; the per-field hex conversions of well-formed entries
(`_decode_trace_action` / `_decode_trace_result`) are value conversions no
claim depends on, so a well-formed entry is carried through as its payload.
The node is modelled as a stream of responses indexed by how many RPC
requests have been issued, which makes the number of network requests a
visible output. -/

/-- Error kind of the trace decoder (`ParityTraceDecodeException`,
ethereum_client.py lines 90-91; the spec's `TraceDecodeException`). -/
inductive TraceError where
  | parityTraceDecode
deriving DecidableEq, Repr

/-- A raw trace list entry: either a dictionary (payload abstracted) or not a
dictionary, the one shape `_decode_traces` rejects. -/
inductive RawTrace where
  | dict (payload : Nat)
  | notDict
deriving DecidableEq, Repr

/-- Embeds `_decode_traces` (ethereum_client.py lines 464-476): fails with
`ParityTraceDecodeException` at the first non-dictionary entry, otherwise
keeps every entry (its field conversions abstracted as the payload). -/
def _decode_traces : List RawTrace → Except TraceError (List RawTrace)
  | [] => .ok []
  | .notDict :: _ => .error .parityTraceDecode
  | .dict p :: rest => (_decode_traces rest).map (fun ts => .dict p :: ts)

/-- Embeds `trace_transaction` (ethereum_client.py lines 478-483): issue the
RPC call and decode; on `ParityTraceDecodeException` issue the whole RPC call
again and decode the fresh response, propagating a second failure. Returns
(number of RPC requests issued, outcome). -/
def trace_transaction (responses : Nat → List RawTrace) :
    Nat × Except TraceError (List RawTrace) :=
  match _decode_traces (responses 0) with
  | .ok ts => (1, .ok ts)
  | .error _ => (2, _decode_traces (responses 1))

/-- Embeds the request/decode/retry part of `trace_filter` (ethereum_client.py
lines 592-596), identical in shape to `trace_transaction`'s. -/
def trace_filter_rpc (responses : Nat → List RawTrace) :
    Nat × Except TraceError (List RawTrace) :=
  match _decode_traces (responses 0) with
  | .ok ts => (1, .ok ts)
  | .error _ => (2, _decode_traces (responses 1))

/-- Embeds the per-entry retry of `trace_transactions` (ethereum_client.py
lines 495-500): on `ParityTraceDecodeException` it calls `_decode_traces`
again on the SAME already-received `raw_tx`, with no new network request; the
second call's failure propagates. -/
def decode_traces_with_retry (raw : List RawTrace) : Except TraceError (List RawTrace) :=
  match _decode_traces raw with
  | .ok ts => .ok ts
  | .error _ => _decode_traces raw

/-- The result loop of `trace_transactions` (ethereum_client.py lines
492-504): a null `result` appends None, a non-null one is decoded with the
per-entry retry; a decode failure aborts the whole call. -/
def collect_traces : List (Option (List RawTrace)) →
    Except TraceError (List (Option (List RawTrace)))
  | [] => .ok []
  | none :: rest => (collect_traces rest).map (fun ts => none :: ts)
  | some raw :: rest =>
    match decode_traces_with_retry raw with
    | .ok ts => (collect_traces rest).map (fun acc => some ts :: acc)
    | .error e => .error e

/-- Embeds `trace_transactions` (ethereum_client.py lines 485-504): an empty
hash list short-circuits with no request; otherwise exactly one batched
`requests.post` is issued and its per-hash results are decoded. Returns
(number of RPC requests issued, outcome). -/
def trace_transactions (tx_hashes : List Nat)
    (respond : List Nat → List (Option (List RawTrace))) :
    Nat × Except TraceError (List (Option (List RawTrace))) :=
  if tx_hashes.isEmpty then (0, .ok [])
  else (1, collect_traces (respond tx_hashes))

/-- Boolean success test for an `Except` outcome. -/
def exceptOk : Except TraceError (List RawTrace) → Bool
  | .ok _ => true
  | .error _ => false

/-- Claim C3 counterexample: a single transaction hash whose (single) batched
response holds a malformed trace — `trace_transactions` issues exactly ONE
network request and propagates the decode failure, with no fresh RPC call
before propagating, against the claim that all three methods retry the whole
underlying RPC call. -/
theorem trace_transactions_no_fresh_request :
    trace_transactions [1] (fun _ => [some [RawTrace.notDict]]) =
      (1, .error .parityTraceDecode) := by
  rfl

/-- Claim C3 as amended: `trace_transaction` and `trace_filter` issue the
whole RPC call a second time exactly when the first decode fails (so one
automatic retry of the network call, a second failure propagating), while
`trace_transactions` never issues more than one network request — its
per-entry retry is `_decode_traces` re-run on the already-received payload,
which returns the identical outcome, decoding being deterministic. -/
theorem trace_retry_spec (responses : Nat → List RawTrace) :
    (exceptOk (_decode_traces (responses 0)) = true →
      trace_transaction responses = (1, _decode_traces (responses 0)) ∧
      trace_filter_rpc responses = (1, _decode_traces (responses 0))) ∧
    (exceptOk (_decode_traces (responses 0)) = false →
      trace_transaction responses = (2, _decode_traces (responses 1)) ∧
      trace_filter_rpc responses = (2, _decode_traces (responses 1))) ∧
    (∀ (hashes : List Nat) (respond : List Nat → List (Option (List RawTrace))),
      (trace_transactions hashes respond).1 ≤ 1) ∧
    (∀ raw : List RawTrace, decode_traces_with_retry raw = _decode_traces raw) := by
  refine ⟨?_, ?_, ?_, ?_⟩
  · intro h
    cases hdec : _decode_traces (responses 0) with
    | ok ts => exact ⟨by simp [trace_transaction, hdec], by simp [trace_filter_rpc, hdec]⟩
    | error e => rw [hdec] at h; simp [exceptOk] at h
  · intro h
    cases hdec : _decode_traces (responses 0) with
    | ok ts => rw [hdec] at h; simp [exceptOk] at h
    | error e => exact ⟨by simp [trace_transaction, hdec], by simp [trace_filter_rpc, hdec]⟩
  · intro hashes respond
    by_cases hh : hashes.isEmpty <;> simp [trace_transactions, hh]
  · intro raw
    cases hdec : _decode_traces raw with
    | ok ts => simp [decode_traces_with_retry, hdec]
    | error e => simp [decode_traces_with_retry, hdec]

/-- Claim C3 witness: the amended facts at concrete inputs — a well-formed
response decodes in one request, a malformed first response makes
`trace_transaction` issue a second request. -/
theorem trace_retry_spec_witness :
    trace_transaction (fun _ => [RawTrace.dict 3]) = (1, .ok [RawTrace.dict 3]) ∧
    trace_transaction (fun i => if i = 0 then [RawTrace.notDict] else [RawTrace.dict 3]) =
      (2, .ok [RawTrace.dict 3]) := by
  constructor
  · exact ((trace_retry_spec (fun _ => [RawTrace.dict 3])).1 rfl).1
  · exact ((trace_retry_spec
      (fun i => if i = 0 then [RawTrace.notDict] else [RawTrace.dict 3])).2.1 rfl).1

/-! ### trace_filter request building (ethereum_client.py lines 506-596) -/

/-- Failure of the argument check (`assert from_address or to_address`; the
spec's `InvalidArguments`). -/
inductive TraceFilterError where
  | invalidArguments
deriving DecidableEq, Repr

/-- The `parameters` dictionary sent to the node: a key absent from the
request is `none`. Block numbers, when present, are hex strings. -/
structure TraceFilterRequest where
  fromBlock : Option String
  toBlock : Option String
  fromAddress : Option (List String)
  toAddress : Option (List String)
  after : Option Nat
  count : Option Nat
deriving DecidableEq, Repr

/-- Hex rendering of a block number, as Python `'0x%x' % n` (lowercase, no
leading zeroes). -/
def toHexString (n : Nat) : String :=
  "0x" ++ String.mk (Nat.toDigits 16 n)

/-- Python truthiness of an optional integer: `None` and `0` are falsy. -/
def truthyNat : Option Nat → Bool
  | none => false
  | some n => n != 0

/-- Python truthiness of an optional list: `None` and `[]` are falsy. -/
def truthyList : Option (List String) → Bool
  | none => false
  | some l => !l.isEmpty

/-- Embeds the parameter building of `trace_filter` (ethereum_client.py lines
577-590): asserts that at least one of `from_address`/`to_address` is truthy,
then adds each parameter only if truthy — in particular
`if from_block: parameters['fromBlock'] = '0x%x' % from_block`, so a
`from_block` of 0 is accepted without error but never serialized. -/
def trace_filter_params (from_block : Nat) (to_block : Option Nat)
    (from_address to_address : Option (List String)) (after count : Option Nat) :
    Except TraceFilterError TraceFilterRequest :=
  if truthyList from_address || truthyList to_address then
    .ok ⟨if from_block != 0 then some (toHexString from_block) else none,
         if truthyNat to_block then (to_block.map toHexString) else none,
         if truthyList from_address then from_address else none,
         if truthyList to_address then to_address else none,
         if truthyNat after then after else none,
         if truthyNat count then count else none⟩
  else .error .invalidArguments

/-- Claim C5 counterexample: `trace_filter` called with `from_block = 0` (and
a from-address, satisfying the precondition) builds a request with NO
fromBlock key at all — the layer accepts 0 but drops it instead of
forwarding it, against the claim that the supplied fromBlock is included for
every value. -/
theorem trace_filter_drops_zero_from_block :
    trace_filter_params 0 none (some ["0x1"]) none none none =
      .ok ⟨none, none, some ["0x1"], none, none, none⟩ := by
  rfl

/-- Claim C5 as amended: under the precondition that a from- or to-address is
supplied, the request serializes block numbers as hex strings and includes
the supplied fromBlock for every nonzero fromBlock; a fromBlock of 0 is
accepted by this layer (no error, no pre-validation) but omitted from the
request rather than forwarded. -/
theorem trace_filter_params_spec (from_block : Nat) (to_block : Option Nat)
    (from_address to_address : Option (List String)) (after count : Option Nat)
    (hpre : truthyList from_address = true ∨ truthyList to_address = true) :
    ∃ req : TraceFilterRequest,
      trace_filter_params from_block to_block from_address to_address after count = .ok req ∧
      (from_block ≠ 0 → req.fromBlock = some (toHexString from_block)) ∧
      (from_block = 0 → req.fromBlock = none) ∧
      (∀ tb : Nat, to_block = some tb → tb ≠ 0 → req.toBlock = some (toHexString tb)) := by
  have hcond : (truthyList from_address || truthyList to_address) = true := by
    rcases hpre with h | h <;> simp [h]
  refine ⟨_, by rw [trace_filter_params, if_pos hcond], ?_, ?_, ?_⟩
  · intro h
    simp [h]
  · intro h
    simp [h]
  · intro tb htb hne
    subst htb
    simp [truthyNat, hne]

/-- Claim C5 witness: at a concrete nonzero fromBlock with a from-address the
request carries the hex-serialized fromBlock. -/
theorem trace_filter_params_spec_witness :
    trace_filter_params 16 (some 32) (some ["0xa"]) none none none =
      .ok ⟨some "0x10", some "0x20", some ["0xa"], none, none, none⟩ := by
  obtain ⟨req, hok, hnz, hz, htb⟩ :=
    trace_filter_params_spec 16 (some 32) (some ["0xa"]) none none none (by simp [truthyList])
  have hval : trace_filter_params 16 (some 32) (some ["0xa"]) none none none =
      .ok ⟨some "0x10", some "0x20", some ["0xa"], none, none, none⟩ := by rfl
  rw [hval] at hok
  exact hval

/-! ### Batched JSON-RPC accessors (ethereum_client.py lines 203-226, 485-504,
746-760, 777-792, 800-816)

Each accessor builds a JSON payload from its input list and issues one
`requests.post`; the node is a response function, so the number of posts is a
visible output. External web3 formatters (`transaction_formatter`,
`receipt_formatter`, `block_formatter`) are out-of-scope collaborators passed
as function parameters. -/

/-- Parameters of one query inside the `get_balances` batch. -/
inductive RpcParams where
  | getBalance (address : String) (block : String)
  | ethCall (toAddr : String) (data : String) (block : String)
deriving DecidableEq, Repr

/-- One JSON-RPC query object of a batch. -/
structure JsonRpcQuery where
  jsonrpc : String
  method : String
  params : RpcParams
  id : Nat
deriving DecidableEq, Repr

/-- Removes every occurrence of "0x", as Python `address.replace('0x', '')`
(left-to-right, non-overlapping). -/
def pyReplaceDrop0x : List Char → List Char
  | [] => []
  | [c] => [c]
  | c1 :: c2 :: rest =>
    if c1 = '0' ∧ c2 = 'x' then pyReplaceDrop0x rest
    else c1 :: pyReplaceDrop0x (c2 :: rest)

/-- Left-pads to 64 characters with '0', as Python `'{0:0>64}'.format(s)`
written without literal braces here. -/
def padLeft64 (s : List Char) : List Char :=
  List.replicate (64 - s.length) '0' ++ s

/-- The `data` field of a `balanceOf` call (ethereum_client.py line 216): the
selector "0x70a08231" followed by the owner address, '0x' removed, lowercased
and left-padded with zeroes to 64 hex characters. -/
def balanceOfData (address : String) : String :=
  "0x70a08231" ++ String.mk (padLeft64 ((pyReplaceDrop0x address.data).map Char.toLower))

/-- The token `balanceOf` queries of `get_balances` (ethereum_client.py lines
212-218): Python `enumerate` gives the running index `i`, the query id is
`i + 1`. -/
def balance_token_queries (address : String) : Nat → List String → List JsonRpcQuery
  | _, [] => []
  | i, erc20_address :: rest =>
    ⟨"2.0", "eth_call", .ethCall erc20_address (balanceOfData address) "latest", i + 1⟩ ::
      balance_token_queries address (i + 1) rest

/-- The full query batch of `get_balances` (ethereum_client.py lines 204-218):
the native `eth_getBalance` query with id 0, then one `balanceOf` query per
token address. -/
def get_balances_queries (address : String) (erc20_addresses : List String) :
    List JsonRpcQuery :=
  ⟨"2.0", "eth_getBalance", .getBalance address "latest", 0⟩ ::
    balance_token_queries address 0 erc20_addresses

/-- Hex digit value (0 for a non-hex character; the decode is applied to
well-formed node responses). -/
def hexCharVal (c : Char) : Nat :=
  if '0' ≤ c ∧ c ≤ '9' then c.toNat - '0'.toNat
  else if 'a' ≤ c ∧ c ≤ 'f' then c.toNat - 'a'.toNat + 10
  else if 'A' ≤ c ∧ c ≤ 'F' then c.toNat - 'A'.toNat + 10
  else 0

/-- Embeds Python `int(s, 16)` on the well-formed '0x'-prefixed hex results a
node returns. -/
def hexStrToNat (s : String) : Nat :=
  let cs := if ("0x".data).isPrefixOf s.data then s.data.drop 2 else s.data
  cs.foldl (fun acc c => acc * 16 + hexCharVal c) 0

/-- One entry of the `get_balances` result list. -/
structure BalanceEntry where
  token_address : Option String
  balance : Nat
deriving DecidableEq, Repr

/-- Embeds the response loop of `get_balances` (ethereum_client.py lines
220-226): `zip([None] + erc20_addresses, response.json())`, with a `'0x'`
result decoded as 0 and anything else as `int(result, 16)`. -/
def get_balances_decode (erc20_addresses : List String) (results : List String) :
    List BalanceEntry :=
  ((none :: erc20_addresses.map some).zip results).map fun p =>
    ⟨p.1, if p.2 = "0x" then 0 else hexStrToNat p.2⟩

/-- Embeds `Erc20Manager.get_balances` (ethereum_client.py lines 203-226):
builds the batch, issues exactly one `requests.post` (the count is the first
component), and decodes the in-order result list. -/
def get_balances (address : String) (erc20_addresses : List String)
    (respond : List JsonRpcQuery → List String) : Nat × List BalanceEntry :=
  (1, get_balances_decode erc20_addresses (respond (get_balances_queries address erc20_addresses)))

theorem balance_token_queries_length (address : String) (tokens : List String) (i : Nat) :
    (balance_token_queries address i tokens).length = tokens.length := by
  induction tokens generalizing i with
  | nil => rfl
  | cons t rest ih => simp [balance_token_queries, ih]

theorem balance_token_queries_getElem? (address : String) (tokens : List String)
    (i j : Nat) (hj : j < tokens.length) :
    (balance_token_queries address i tokens)[j]? =
      some ⟨"2.0", "eth_call",
            .ethCall (tokens.getD j "") (balanceOfData address) "latest", i + j + 1⟩ := by
  induction tokens generalizing i j with
  | nil => simp at hj
  | cons t rest ih =>
    match j with
    | 0 => simp [balance_token_queries]
    | j' + 1 =>
      have := ih (i + 1) j' (by simpa using Nat.lt_of_succ_lt_succ hj)
      simp only [balance_token_queries, List.getElem?_cons_succ, this, List.getD_cons_succ]
      congr 2
      omega

/-- Claim C7: `get_balances` issues exactly one batched request of size
N + 1 whose first query is the native `eth_getBalance` and whose remaining
queries are one `balanceOf` call per token address in input order with ids
1..N; the decoded result list aligns positionally with
(native :: token addresses), and a result equal to "0x" decodes to 0, never
to an error. -/
theorem get_balances_spec (address : String) (tokens : List String)
    (respond : List JsonRpcQuery → List String) :
    (get_balances address tokens respond).1 = 1 ∧
    (get_balances_queries address tokens).length = tokens.length + 1 ∧
    (get_balances_queries address tokens)[0]? =
      some ⟨"2.0", "eth_getBalance", .getBalance address "latest", 0⟩ ∧
    (∀ i : Nat, i < tokens.length →
      (get_balances_queries address tokens)[i + 1]? =
        some ⟨"2.0", "eth_call",
              .ethCall (tokens.getD i "") (balanceOfData address) "latest", i + 1⟩) ∧
    (∀ results : List String, results.length = tokens.length + 1 →
      (get_balances_decode tokens results).length = tokens.length + 1 ∧
      ∀ i : Nat, ∀ res : String, results[i]? = some res →
        (get_balances_decode tokens results)[i]? =
          some ⟨(none :: tokens.map some).getD i none,
                if res = "0x" then 0 else hexStrToNat res⟩) := by
  refine ⟨rfl, ?_, by simp [get_balances_queries], ?_, ?_⟩
  · simp [get_balances_queries, balance_token_queries_length]
  · intro i hi
    simp only [get_balances_queries, List.getElem?_cons_succ]
    have h := balance_token_queries_getElem? address tokens 0 i hi
    simpa using h
  · intro results hlen
    constructor
    · simp [get_balances_decode, hlen]
    · intro i res hres
      have hi : i < results.length := by
        rcases List.getElem?_eq_some_iff.mp hres with ⟨hi, _⟩
        exact hi
      have hi' : i < (none :: tokens.map some).length := by
        simp only [List.length_cons, List.length_map]
        omega
      have hl1 : (none :: tokens.map some)[i]? =
          some ((none :: tokens.map some).getD i none) := by
        rw [List.getD_eq_getElem?_getD, List.getElem?_eq_getElem hi']
        rfl
      have hzip : ((none :: tokens.map some).zip results)[i]? =
          some ((none :: tokens.map some).getD i none, res) :=
        List.getElem?_zip_eq_some.mpr ⟨hl1, hres⟩
      simp [get_balances_decode, hzip]

/-- Claim C7 witness: at one token address and responses ["0x", "0x"], the
batch has size 2 and the token entry decodes to balance 0. -/
theorem get_balances_spec_witness :
    (get_balances "0xAb" ["0xCD"] (fun _ => ["0x", "0x"])).1 = 1 ∧
    (get_balances_queries "0xAb" ["0xCD"]).length = 2 ∧
    (get_balances_decode ["0xCD"] ["0x", "0x"])[1]? = some ⟨some "0xCD", 0⟩ := by
  have h := get_balances_spec "0xAb" ["0xCD"] (fun _ => ["0x", "0x"])
  refine ⟨h.1, h.2.1, ?_⟩
  have h2 := (h.2.2.2.2 ["0x", "0x"] rfl).2 1 "0x" rfl
  simpa using h2

/-! ### The other batched accessors (ethereum_client.py lines 746-760, 777-792,
800-816) -/

/-- The batched JSON-RPC payload built from a hash list: one (id, method,
argument) triple per hash, ids counting from 0 (Python `enumerate`). -/
def batch_payload (method : String) : Nat → List Nat → List (Nat × String × Nat)
  | _, [] => []
  | i, h :: rest => (i, method, h) :: batch_payload method (i + 1) rest

/-- A raw transaction receipt as the node returns it: the fields the accessor
inspects (`blockNumber`, possibly null) plus the rest of the payload. -/
structure RawReceipt where
  blockNumber : Option Nat
  payload : Nat
deriving DecidableEq, Repr

/-- Embeds `get_transactions` (ethereum_client.py lines 746-760): empty input
short-circuits with no request; otherwise one batched post, null results kept
as None and the rest passed to the external `transaction_formatter` `fmt`. -/
def get_transactions (fmt : Nat → Nat) (tx_hashes : List Nat)
    (respond : List (Nat × String × Nat) → List (Option Nat)) : Nat × List (Option Nat) :=
  if tx_hashes.isEmpty then (0, [])
  else (1, (respond (batch_payload "eth_getTransactionByHash" 0 tx_hashes)).map
    (fun r => r.map fmt))

/-- Embeds `get_transaction_receipts` (ethereum_client.py lines 777-792):
empty input short-circuits with no request; a null receipt or one with a null
`blockNumber` (still pending) becomes None, the rest go to the external
`receipt_formatter` `fmt`. -/
def get_transaction_receipts (fmt : RawReceipt → Nat) (tx_hashes : List Nat)
    (respond : List (Nat × String × Nat) → List (Option RawReceipt)) :
    Nat × List (Option Nat) :=
  if tx_hashes.isEmpty then (0, [])
  else (1, (respond (batch_payload "eth_getTransactionReceipt" 0 tx_hashes)).map
    (fun r => match r with
      | some receipt => if receipt.blockNumber.isSome then some (fmt receipt) else none
      | none => none))

/-- The batched payload of `get_blocks`: params are the hex block number and
the `full_transactions` flag. -/
def blocks_payload (full_transactions : Bool) : Nat → List Nat → List (Nat × String × Bool)
  | _, [] => []
  | i, b :: rest => (i, toHexString b, full_transactions) :: blocks_payload full_transactions (i + 1) rest

/-- Embeds `get_blocks` (ethereum_client.py lines 800-816): empty input
short-circuits with no request; null results become None, the rest (after the
`extraData` removal, absorbed into the formatter) go to the external
`block_formatter` `fmt`. -/
def get_blocks (fmt : Nat → Nat) (block_numbers : List Nat) (full_transactions : Bool)
    (respond : List (Nat × String × Bool) → List (Option Nat)) : Nat × List (Option Nat) :=
  if block_numbers.isEmpty then (0, [])
  else (1, (respond (blocks_payload full_transactions 0 block_numbers)).map
    (fun r => r.map fmt))

/-- Claim C6 counterexample: `get_balances` with an empty token list does NOT
short-circuit — it issues one batched request (holding the native-balance
query) and returns a one-entry result, not the claimed empty result with no
network call. -/
theorem get_balances_empty_no_shortcircuit :
    get_balances "0xaa" [] (fun _ => ["0x"]) = (1, [⟨none, 0⟩]) ∧
    get_balances "0xaa" [] (fun _ => ["0x"]) ≠ (0, []) := by
  constructor
  · rfl
  · decide

/-- Claim C6 as amended: the batched transaction, receipt, block and trace
accessors short-circuit to an empty result with no network request on empty
input; `get_balances` instead always issues exactly one batched request — its
batch holds the native-balance query even for an empty token list. -/
theorem batched_accessors_empty_input :
    (∀ (fmt : Nat → Nat) (respond : List (Nat × String × Nat) → List (Option Nat)),
      get_transactions fmt [] respond = (0, [])) ∧
    (∀ (fmt : RawReceipt → Nat) (respond : List (Nat × String × Nat) → List (Option RawReceipt)),
      get_transaction_receipts fmt [] respond = (0, [])) ∧
    (∀ (fmt : Nat → Nat) (full_transactions : Bool)
      (respond : List (Nat × String × Bool) → List (Option Nat)),
      get_blocks fmt [] full_transactions respond = (0, [])) ∧
    (∀ respond : List Nat → List (Option (List RawTrace)),
      trace_transactions [] respond = (0, .ok [])) ∧
    (∀ (address : String) (respond : List JsonRpcQuery → List String),
      (get_balances address [] respond).1 = 1 ∧
      (get_balances_queries address []).length = 1) :=
  ⟨fun _ _ => rfl, fun _ _ => rfl, fun _ _ _ => rfl, fun _ => rfl, fun _ _ => ⟨rfl, rfl⟩⟩

/-! ### ERC20/ERC721 transfer log decoding (ethereum_client.py lines 147-192)

Topics and the data field are byte strings (`List Nat`); a topic is 32 bytes.
`eth_abi.decode_abi(['address', ...])` reads the low 20 bytes of each 32-byte
word as the address; `Web3.toChecksumAddress` is an external rendering
primitive (out-of-scope collaborator), abstracted as the identity on the
20 address bytes since it is injective and no claim concerns its mixed-case
output. -/

/-- Byte decoding of a hex string two characters at a time, as
`HexBytes(...)` applied to a hex constant. -/
def hexPairsToBytes : List Char → List Nat
  | c1 :: c2 :: rest => (hexCharVal c1 * 16 + hexCharVal c2) :: hexPairsToBytes rest
  | _ => []

/-- The keccak hash of `Transfer(address,address,uint256)`
(`HexBytes(ERC20_721_TRANSFER_TOPIC)`; the hex constant is given at
ethereum_client.py lines 148-150). -/
def TRANSFER_TOPIC : List Nat :=
  hexPairsToBytes "ddf252ad1be2c89b69c2b068fc378daa952ba7f163c4a11628f55a4df523b3ef".data

/-- External EIP-55 checksum rendering, abstracted as the identity on the
20-byte address. -/
def toChecksumAddress (addressBytes : List Nat) : List Nat :=
  addressBytes

/-- The decoded transfer event: the `args` dictionary the decoder returns. -/
inductive TransferEvent where
  | erc20 (fromAddress toAddress : List Nat) (value : Nat)
  | erc721 (fromAddress toAddress : List Nat) (tokenId : Nat)
deriving DecidableEq, Repr

/-- Embeds `_decode_erc20_log` (ethereum_client.py lines 173-182): topics
nonempty, topic 0 the Transfer signature, exactly 3 topics; the value is
`eth_abi.decode_single('uint256', data)`, the first 32 bytes of `data`
big-endian (eth_abi needs at least 32 bytes; the claims carry
`data.length = 32`); from/to are the address words of topics 1 and 2. -/
def _decode_erc20_log (data : List Nat) (topics : List (List Nat)) : Option TransferEvent :=
  match topics with
  | [t0, t1, t2] =>
    if t0 = TRANSFER_TOPIC then
      some (.erc20 (toChecksumAddress (t1.drop 12)) (toChecksumAddress (t2.drop 12))
        (bytesToNat (data.take 32)))
    else none
  | _ => none

/-- Embeds `_decode_erc721_log` (ethereum_client.py lines 184-192): same
signature check with exactly 4 topics; tokenId is the uint256 word of
topic 3. -/
def _decode_erc721_log (topics : List (List Nat)) : Option TransferEvent :=
  match topics with
  | [t0, t1, t2, t3] =>
    if t0 = TRANSFER_TOPIC then
      some (.erc721 (toChecksumAddress (t1.drop 12)) (toChecksumAddress (t2.drop 12))
        (bytesToNat t3))
    else none
  | _ => none

/-- Embeds `_decode_erc20_or_erc721_log` (ethereum_client.py lines 167-171):
try the ERC20 shape, fall back to the ERC721 shape, else absence. -/
def _decode_erc20_or_erc721_log (data : List Nat) (topics : List (List Nat)) :
    Option TransferEvent :=
  match _decode_erc20_log data topics with
  | some decoded => some decoded
  | none => _decode_erc721_log topics

/-- Claim C8: with topic 0 equal to the Transfer signature and exactly 3
topics the decoder returns an Erc20Transfer whose value is the 32-byte data
field big-endian; with exactly 4 topics an Erc721Transfer with from, to and
tokenId from the topics; with any other topic count, or a different topic 0,
it returns absence (None), not an error. -/
theorem decode_transfer_log_spec (data t1 t2 t3 : List Nat)
    (topics : List (List Nat)) (hdata : data.length = 32) :
    _decode_erc20_or_erc721_log data [TRANSFER_TOPIC, t1, t2] =
      some (.erc20 (toChecksumAddress (t1.drop 12)) (toChecksumAddress (t2.drop 12))
        (bytesToNat data)) ∧
    _decode_erc20_or_erc721_log data [TRANSFER_TOPIC, t1, t2, t3] =
      some (.erc721 (toChecksumAddress (t1.drop 12)) (toChecksumAddress (t2.drop 12))
        (bytesToNat t3)) ∧
    (topics.length ≠ 3 → topics.length ≠ 4 →
      _decode_erc20_or_erc721_log data topics = none) ∧
    (∀ t0 : List Nat, topics[0]? = some t0 → t0 ≠ TRANSFER_TOPIC →
      _decode_erc20_or_erc721_log data topics = none) := by
  have htake : data.take 32 = data := List.take_of_length_le (by omega)
  refine ⟨?_, ?_, ?_, ?_⟩
  · simp [_decode_erc20_or_erc721_log, _decode_erc20_log, htake]
  · simp [_decode_erc20_or_erc721_log, _decode_erc20_log, _decode_erc721_log]
  · intro h3 h4
    rcases topics with _ | ⟨a, _ | ⟨b, _ | ⟨c, _ | ⟨d, _ | ⟨e, rest⟩⟩⟩⟩⟩ <;>
      simp_all [_decode_erc20_or_erc721_log, _decode_erc20_log, _decode_erc721_log]
  · intro t0 ht0 hne
    rcases topics with _ | ⟨a, _ | ⟨b, _ | ⟨c, _ | ⟨d, _ | ⟨e, rest⟩⟩⟩⟩⟩ <;>
      simp_all [_decode_erc20_or_erc721_log, _decode_erc20_log, _decode_erc721_log]

/-- Claim C8 witness: a concrete 3-topic matching log decodes to an
Erc20Transfer, and a concrete 2-topic log with a matching topic 0 decodes to
absence. -/
theorem decode_transfer_log_spec_witness :
    _decode_erc20_or_erc721_log (List.replicate 32 0)
        [TRANSFER_TOPIC, List.replicate 32 1, List.replicate 32 2] =
      some (.erc20 (toChecksumAddress ((List.replicate 32 1).drop 12))
        (toChecksumAddress ((List.replicate 32 2).drop 12))
        (bytesToNat (List.replicate 32 0))) ∧
    _decode_erc20_or_erc721_log (List.replicate 32 0)
        [TRANSFER_TOPIC, List.replicate 32 1] = none := by
  have h := decode_transfer_log_spec (List.replicate 32 0) (List.replicate 32 1)
    (List.replicate 32 2) (List.replicate 32 3)
    [TRANSFER_TOPIC, List.replicate 32 1] (by simp)
  exact ⟨h.1, h.2.2.1 (by simp) (by simp)⟩
